import Mathlib

/-!
Verification development for the DeepSeek code-review pipeline
(`src/reviewers/deepseek.js`): chunk splitting, bounded retry with
backoff, HTTP error translation, free-text section extraction, result
merging and output enhancement.  JavaScript strings are modelled as
`List Char` (ASCII inputs), JavaScript objects as structures whose
possibly-absent fields are `Option`s, and the network as an explicit
list of per-chunk outcomes.
-/

namespace CodeChecker

/-- Whitespace class of JavaScript `\s` restricted to the ASCII range
(space, tab, newline, carriage return, vertical tab, form feed). -/
def isJsSpace (c : Char) : Bool :=
  c = ' ' || c = '\t' || c = '\n' || c = '\r' || c = '\x0b' || c = '\x0c'

/-- Word character of JavaScript `\w` / `\b`: ASCII letters, digits, underscore. -/
def isWordChar (c : Char) : Bool :=
  c.isAlpha || c.isDigit || c = '_'

/-- Trim of JavaScript `String.prototype.trim` on ASCII input. -/
def jsTrim (t : List Char) : List Char :=
  ((t.dropWhile isJsSpace).reverse.dropWhile isJsSpace).reverse

/-- Lower-casing of an ASCII string, as JavaScript `toLowerCase` acts on ASCII. -/
def jsToLower (t : List Char) : List Char :=
  t.map Char.toLower

/-! ### Chunker (`splitCodeIntoChunks`, deepseek.js lines 363-391) -/

/-- JavaScript `code.split('\n')`: the pieces of the string between newline
characters; an empty string yields one empty piece. -/
def splitLines : List Char → List (List Char)
  | [] => [[]]
  | c :: rest =>
    if c = '\n' then [] :: splitLines rest
    else
      match splitLines rest with
      | [] => [[c]]
      | l :: ls => (c :: l) :: ls

/-- Loop body of `splitCodeIntoChunks` (lines 374-389): greedily accumulate
lines into `currentChunk`, starting a new chunk when adding the next line
would push the running length (newlines not counted by the check) past
`chunkSize` and the running chunk is non-empty; each consumed line gets a
`'\n'` re-appended; the final chunk is pushed when non-empty. -/
def chunkLoop (chunkSize : Nat) : List (List Char) → List Char → List (List Char)
  | [], currentChunk =>
    if currentChunk.length > 0 then [currentChunk] else []
  | line :: rest, currentChunk =>
    if currentChunk.length + line.length > chunkSize && currentChunk.length > 0 then
      currentChunk :: chunkLoop chunkSize rest (line ++ ['\n'])
    else
      chunkLoop chunkSize rest (currentChunk ++ (line ++ ['\n']))

/-- `splitCodeIntoChunks(code, chunkSize)` (lines 363-391): a single chunk
when the code fits, otherwise the greedy line-accumulating split. -/
def splitCodeIntoChunks (code : List Char) (chunkSize : Nat) : List (List Char) :=
  if code.length ≤ chunkSize then [code]
  else chunkLoop chunkSize (splitLines code) []

theorem splitLines_ne_nil (s : List Char) : splitLines s ≠ [] := by
  cases s with
  | nil => simp [splitLines]
  | cons c rest =>
    simp only [splitLines]
    by_cases h : c = '\n'
    · simp [h]
    · simp only [h, if_false]
      cases hr : splitLines rest <;> simp

theorem splitLines_join (s : List Char) :
    ((splitLines s).map (fun l => l ++ ['\n'])).flatten = s ++ ['\n'] := by
  induction s with
  | nil => simp [splitLines]
  | cons c rest ih =>
    simp only [splitLines]
    by_cases h : c = '\n'
    · subst h; simp_all
    · simp only [h, if_false]
      cases hr : splitLines rest with
      | nil => exact absurd hr (splitLines_ne_nil rest)
      | cons l ls =>
        rw [hr] at ih
        simp only [List.map_cons, List.flatten_cons] at ih ⊢
        simp only [List.cons_append]
        exact congrArg (List.cons c) ih

theorem chunkLoop_join (chunkSize : Nat) (lines : List (List Char)) :
    ∀ cur : List Char,
      (chunkLoop chunkSize lines cur).flatten
        = cur ++ (lines.map (fun l => l ++ ['\n'])).flatten := by
  induction lines with
  | nil =>
    intro cur
    simp only [chunkLoop]
    by_cases h : cur.length > 0
    · simp [h]
    · simp only [h, if_false]
      have : cur = [] := List.length_eq_zero.mp (Nat.le_zero.mp (Nat.not_lt.mp h))
      simp [this]
  | cons line rest ih =>
    intro cur
    simp only [chunkLoop]
    by_cases h : cur.length + line.length > chunkSize ∧ cur.length > 0
    · have hb : (decide (cur.length + line.length > chunkSize)
          && decide (cur.length > 0)) = true := by
        simp [h.1, h.2]
      simp [hb, ih]
    · have hb : (decide (cur.length + line.length > chunkSize)
          && decide (cur.length > 0)) = false := by
        rcases Decidable.not_and_iff_or_not.mp h with h1 | h1 <;> simp [h1]
      simp [hb, ih]

/-- Amended round-trip law for the chunker: an input that fits in one chunk
is returned verbatim; a larger input is reproduced by the concatenation of
the chunks with exactly one extra trailing newline (the line join re-appends
a `'\n'` after the final line). -/
theorem splitCodeIntoChunks_roundtrip (code : List Char) (chunkSize : Nat) :
    (code.length ≤ chunkSize → splitCodeIntoChunks code chunkSize = [code]) ∧
    (chunkSize < code.length →
      (splitCodeIntoChunks code chunkSize).flatten = code ++ ['\n']) := by
  constructor
  · intro h
    simp [splitCodeIntoChunks, h]
  · intro h
    have h' : ¬ code.length ≤ chunkSize := Nat.not_le.mpr h
    simp only [splitCodeIntoChunks, h', if_false]
    rw [chunkLoop_join, splitLines_join]
    simp

/-- A chunk that is a single line (plus the re-appended newline) whose line
alone exceeds the target size. -/
def bigSingleLine (chunkSize : Nat) (c : List Char) : Prop :=
  ∃ l : List Char, c = l ++ ['\n'] ∧ chunkSize < l.length

theorem chunkLoop_length_bound (chunkSize : Nat) (lines : List (List Char)) :
    ∀ cur : List Char,
      cur.length ≤ chunkSize + 1 ∨ bigSingleLine chunkSize cur →
      ∀ c ∈ chunkLoop chunkSize lines cur,
        c.length ≤ chunkSize + 1 ∨ bigSingleLine chunkSize c := by
  induction lines with
  | nil =>
    intro cur hinv c hc
    simp only [chunkLoop] at hc
    by_cases h : cur.length > 0
    · simp only [h, if_true, List.mem_singleton] at hc
      exact hc ▸ hinv
    · simp [h] at hc
  | cons line rest ih =>
    intro cur hinv c hc
    simp only [chunkLoop] at hc
    by_cases h : cur.length + line.length > chunkSize ∧ cur.length > 0
    · have hb : (decide (cur.length + line.length > chunkSize)
          && decide (cur.length > 0)) = true := by simp [h.1, h.2]
      simp only [hb, if_true, List.mem_cons] at hc
      rcases hc with rfl | hc
      · exact hinv
      · refine ih (line ++ ['\n']) ?_ c hc
        by_cases hl : line.length ≤ chunkSize
        · left; simp; omega
        · right; exact ⟨line, rfl, Nat.not_le.mp hl⟩
    · have hb : (decide (cur.length + line.length > chunkSize)
          && decide (cur.length > 0)) = false := by
        rcases Decidable.not_and_iff_or_not.mp h with h1 | h1 <;> simp [h1]
      simp only [hb, Bool.false_eq_true, if_false] at hc
      rcases Decidable.not_and_iff_or_not.mp h with h1 | h1
      · have hle : cur.length + line.length ≤ chunkSize := Nat.not_lt.mp h1
        refine ih (cur ++ (line ++ ['\n'])) ?_ c hc
        left; simp; omega
      · have hcur : cur = [] := by
          have := Nat.le_zero.mp (Nat.not_lt.mp h1)
          exact List.length_eq_zero.mp this
        subst hcur
        refine ih (line ++ ['\n']) ?_ c hc
        by_cases hl : line.length ≤ chunkSize
        · left; simp; omega
        · right; exact ⟨line, by simp, Nat.not_le.mp hl⟩

/-- Amended chunk-size bound: every chunk produced by `splitCodeIntoChunks`
has length at most `chunkSize + 1` (the size check of line 377 does not count
the newline re-appended to each accumulated line), except that a chunk may be
longer only when it consists of a single line that alone exceeds `chunkSize`
(followed by its re-appended newline). -/
theorem splitCodeIntoChunks_size (code : List Char) (chunkSize : Nat) :
    ∀ c ∈ splitCodeIntoChunks code chunkSize,
      c.length ≤ chunkSize + 1 ∨ bigSingleLine chunkSize c := by
  intro c hc
  simp only [splitCodeIntoChunks] at hc
  by_cases h : code.length ≤ chunkSize
  · simp only [h, if_true, List.mem_singleton] at hc
    subst hc
    left; omega
  · simp only [h, if_false] at hc
    exact chunkLoop_length_bound chunkSize (splitLines code) [] (by left; simp) c hc

/-- C2 (counterexample): the round-trip identity fails as stated.  For the
input `"ab"` with `targetSize = 1` (longer than the target, no trailing
newline) the chunker returns `["ab\n"]`, so concatenating the chunks appends
a newline and does not reproduce the original text. -/
theorem C2_counterexample :
    (splitCodeIntoChunks "ab".data 1).flatten ≠ "ab".data := by
  decide

/-- C2 (amended): concatenating the chunks in order reproduces the original
text exactly when the input fits in one chunk (`length ≤ targetSize`); for a
longer input it reproduces the original text with exactly one extra newline
appended, because the line join re-appends `'\n'` after every line including
the last. -/
theorem C2_theorem (code : List Char) (targetSize : Nat) :
    (code.length ≤ targetSize → splitCodeIntoChunks code targetSize = [code]) ∧
    (targetSize < code.length →
      (splitCodeIntoChunks code targetSize).flatten = code ++ ['\n']) :=
  splitCodeIntoChunks_roundtrip code targetSize

/-- Witness for C2: the amended law evaluated at `"ab"` with target sizes 2
(fits: identity) and 1 (overflow: one newline appended). -/
theorem C2_witness :
    splitCodeIntoChunks "ab".data 2 = ["ab".data] ∧
    (splitCodeIntoChunks "ab".data 1).flatten = "ab\n".data := by
  have h2 := C2_theorem "ab".data 2
  have h1 := C2_theorem "ab".data 1
  refine ⟨h2.1 (by decide), ?_⟩
  rw [h1.2 (by decide)]
  decide

/-- C8 (counterexample): with `targetSize = 3` and input `"abc\nd"` the first
chunk `"abc\n"` has length 4 > 3, yet no single line of the input exceeds the
target size — the size check of line 377 does not count the newline that is
re-appended to each accumulated line, so chunks may exceed `targetSize` by
one even when every line fits. -/
theorem C8_counterexample :
    "abc\n".data ∈ splitCodeIntoChunks "abc\nd".data 3 ∧
    3 < "abc\n".data.length ∧
    ∀ l ∈ splitLines "abc\nd".data, l.length ≤ 3 := by
  decide

/-- C8 (amended): every chunk has length at most `targetSize + 1` (the greedy
check compares the running length plus the bare line length against
`targetSize`, not counting the re-appended newline), except that a chunk may
be longer only when it is a single line that alone exceeds `targetSize`. -/
theorem C8_theorem (code : List Char) (targetSize : Nat) :
    ∀ c ∈ splitCodeIntoChunks code targetSize,
      c.length ≤ targetSize + 1 ∨ bigSingleLine targetSize c :=
  splitCodeIntoChunks_size code targetSize

/-- Witness for C8: the bound applied to the chunk `"abc\n"` of the split of
`"abc\nd"` at target size 3. -/
theorem C8_witness :
    "abc\n".data.length ≤ 3 + 1 ∨ bigSingleLine 3 "abc\n".data :=
  C8_theorem "abc\nd".data 3 "abc\n".data (by decide)

/-! ### Data model

JavaScript objects of the review pipeline.  Fields that a given object may
lack (never assigned on some code path) are `Option`s, `none` standing for
the absent/`undefined` field. -/

structure Issues where
  critical : List String := []
  high : List String := []
  medium : List String := []
  low : List String := []
  deriving DecidableEq

structure IssueCount where
  critical : Nat := 0
  high : Nat := 0
  medium : Nat := 0
  low : Nat := 0
  total : Nat := 0
  deriving DecidableEq

/-- Entry pushed onto the orchestrator's `errors` array (lines 104-108). -/
structure ChunkError where
  chunkNumber : Nat := 0
  error : String := ""
  code : String := ""
  deriving DecidableEq

/-- Shape of the object returned by `parseReviewResponse` (lines 462-472),
plus the `retryAttempts`/`retrySuccess` fields that `processChunkWithRetry`
may add (lines 176-179). -/
structure ChunkResult where
  model : String := "deepseek-chat"
  focusAreas : List String := []
  summary : String := ""
  issues : Issues := {}
  recommendations : String := ""
  strengths : String := ""
  rawResponse : String := ""
  chunkNumber : Nat := 0
  totalChunks : Nat := 0
  retryAttempts : Option Nat := none
  retrySuccess : Option Bool := none
  deriving DecidableEq

/-- Shape of the object the orchestrator returns: the fields of a
ChunkResult-or-merged-result, each optional field read as `undefined`
(`none`) when the producing path never assigned it. -/
structure Report where
  model : String := "deepseek-chat"
  focusAreas : List String := []
  summary : String := ""
  issues : Issues := {}
  issueCount : Option IssueCount := none
  recommendations : String := ""
  strengths : String := ""
  rawResponse : String := ""
  chunkNumber : Option Nat := none
  totalChunks : Option Nat := none
  retryAttempts : Option Nat := none
  retrySuccess : Option Bool := none
  processedChunks : Option Nat := none
  chunkResults : Option (List ChunkResult) := none
  errors : Option (List ChunkError) := none
  partialSuccess : Option Bool := none
  deriving DecidableEq

/-- Reading a plain ChunkResult as a Report: the same JavaScript object, its
merge-only fields simply undefined (this is what `combineChunkResults`
returns on the single-result path, line 504). -/
def ChunkResult.toReport (r : ChunkResult) : Report :=
  { model := r.model, focusAreas := r.focusAreas, summary := r.summary,
    issues := r.issues, recommendations := r.recommendations,
    strengths := r.strengths, rawResponse := r.rawResponse,
    chunkNumber := some r.chunkNumber, totalChunks := some r.totalChunks,
    retryAttempts := r.retryAttempts, retrySuccess := r.retrySuccess }

/-! ### Retry controller (`processChunkWithRetry`, lines 154-216)

The network call `reviewCodeChunk` is supplied as data: `f t` is the outcome
of attempt number `t` (0-based). `remaining` counts the attempts still
allowed after the current one, so the loop starts at
`remaining = MAX_RETRIES = 3`, `attempt = 0`. -/

structure RetryError where
  message : String := ""
  retryAttempts : Nat := 0
  retrySuccess : Bool := false
  deriving DecidableEq

/-- Loop body of `processChunkWithRetry`: on each iteration the running
`retryAttempts` becomes the attempt number once `attempt > 0` (line 167); a
success after at least one retry is annotated with `retryAttempts` and
`retrySuccess = true` (lines 176-179); the error of the final attempt is
annotated with `retryAttempts = 3`, `retrySuccess = false` and propagated
(lines 187-192). -/
def retryLoop (f : Nat → Except String ChunkResult)
    (remaining attempt ra0 : Nat) : Except RetryError ChunkResult :=
  let ra := if attempt > 0 then attempt else ra0
  match f attempt with
  | .ok r =>
    if ra > 0 then
      .ok { r with retryAttempts := some ra, retrySuccess := some true }
    else .ok r
  | .error e =>
    match remaining with
    | 0 => .error { message := e, retryAttempts := 3, retrySuccess := false }
    | n + 1 => retryLoop f n (attempt + 1) ra

/-- `processChunkWithRetry` with `MAX_RETRIES = 3`: one initial attempt plus
up to three retries. -/
def processChunkWithRetry (f : Nat → Except String ChunkResult) :
    Except RetryError ChunkResult :=
  retryLoop f 3 0 0

theorem retryLoop_congr (f g : Nat → Except String ChunkResult) :
    ∀ remaining attempt ra : Nat,
      (∀ t, attempt ≤ t → t ≤ attempt + remaining → f t = g t) →
      retryLoop f remaining attempt ra = retryLoop g remaining attempt ra := by
  intro remaining
  induction remaining with
  | zero =>
    intro attempt ra h
    have hft : f attempt = g attempt := h attempt le_rfl (by omega)
    rw [retryLoop.eq_def, retryLoop.eq_def, hft]
  | succ n ih =>
    intro attempt ra h
    have hft : f attempt = g attempt := h attempt le_rfl (by omega)
    rw [retryLoop.eq_def, retryLoop.eq_def, hft]
    cases hg : g attempt with
    | ok r => rfl
    | error e =>
      simp only [hg]
      exact ih (attempt + 1) (if attempt > 0 then attempt else ra)
        (fun t h1 h2 => h t (by omega) (by omega))

/-- C3: the retry controller makes at most 4 total attempts — its result is
determined by the outcomes of attempts 0..3 alone; failing attempts 0 and 1
and succeeding on attempt 2 returns the result annotated
`retryAttempts = 2, retrySuccess = true`; failing all four attempts throws
the final attempt's error annotated `retryAttempts = 3,
retrySuccess = false` (so the 4th attempt, index 3, was made and no 5th is
consulted). -/
theorem C3_theorem :
    (∀ (f : Nat → Except String ChunkResult) (r : ChunkResult) (e0 e1 : String),
      f 0 = .error e0 → f 1 = .error e1 → f 2 = .ok r →
      processChunkWithRetry f =
        .ok { r with retryAttempts := some 2, retrySuccess := some true }) ∧
    (∀ (f : Nat → Except String ChunkResult) (e0 e1 e2 e3 : String),
      f 0 = .error e0 → f 1 = .error e1 → f 2 = .error e2 → f 3 = .error e3 →
      processChunkWithRetry f =
        .error { message := e3, retryAttempts := 3, retrySuccess := false }) ∧
    (∀ f g : Nat → Except String ChunkResult,
      (∀ t, t < 4 → f t = g t) →
      processChunkWithRetry f = processChunkWithRetry g) := by
  refine ⟨?_, ?_, ?_⟩
  · intro f r e0 e1 h0 h1 h2
    show retryLoop f 3 0 0 = _
    rw [retryLoop.eq_def, h0]
    show retryLoop f 2 1 0 = _
    rw [retryLoop.eq_def, h1]
    show retryLoop f 1 2 1 = _
    rw [retryLoop.eq_def, h2]
    rfl
  · intro f e0 e1 e2 e3 h0 h1 h2 h3
    show retryLoop f 3 0 0 = _
    rw [retryLoop.eq_def, h0]
    show retryLoop f 2 1 0 = _
    rw [retryLoop.eq_def, h1]
    show retryLoop f 1 2 1 = _
    rw [retryLoop.eq_def, h2]
    show retryLoop f 0 3 2 = _
    rw [retryLoop.eq_def, h3]
  · intro f g h
    exact retryLoop_congr f g 3 0 0 (fun t h1 h2 => h t (by omega))

/-- Stub result used to exercise the retry controller. -/
def stubChunkResult : ChunkResult :=
  { summary := "ok", rawResponse := "raw", chunkNumber := 1, totalChunks := 1,
    focusAreas := ["security"] }

/-- Stub call failing the first two attempts and succeeding on the third. -/
def stubFailTwice : Nat → Except String ChunkResult :=
  fun t => if t < 2 then .error "boom" else .ok stubChunkResult

/-- Stub call failing every attempt. -/
def stubAlwaysFail : Nat → Except String ChunkResult :=
  fun _ => .error "down"

/-- Witness for C3: concrete stubs — two failures then a success yields the
annotated result; constant failure yields the annotated error. -/
theorem C3_witness :
    processChunkWithRetry stubFailTwice =
      .ok { stubChunkResult with retryAttempts := some 2, retrySuccess := some true } ∧
    processChunkWithRetry stubAlwaysFail =
      .error { message := "down", retryAttempts := 3, retrySuccess := false } :=
  ⟨C3_theorem.1 stubFailTwice stubChunkResult "boom" "boom" rfl rfl rfl,
   C3_theorem.2.1 stubAlwaysFail "down" "down" "down" "down" rfl rfl rfl rfl⟩

/-! ### Backoff delay (lines 194-209), over ℚ

`Math.random()` draws `r ∈ [0,1)`; the delay before the retry with 0-based
`attempt` is `max(100, exponentialDelay + 0.2 * exponentialDelay * (r - 0.5))`
with `exponentialDelay = min(10000, 1000 * 2^attempt)`. -/

def exponentialDelay (attempt : Nat) : ℚ :=
  min 10000 (1000 * 2 ^ attempt)

/-- The jitter term of line 201: `0.2 * exponentialDelay * (Math.random() - 0.5)`. -/
def jitterTerm (attempt : Nat) (r : ℚ) : ℚ :=
  0.2 * exponentialDelay attempt * (r - 0.5)

/-- The delay of line 202: `Math.max(100, exponentialDelay + jitter)`. -/
def delayWithJitter (attempt : Nat) (r : ℚ) : ℚ :=
  max 100 (exponentialDelay attempt + jitterTerm attempt r)

/-- C4: the code's jitter spans only ±10% of the base delay, not the claimed
(and comment-documented) ±20%.  For retry k = 1 (attempt 0, base 1000 ms)
every random draw r ∈ [0,1) gives a delay in [900, 1100), and no draw
attains 1150 ms even though 1150 lies inside the claimed ±20% band
[800, 1200] around the base. -/
theorem C4_theorem :
    (∀ r : ℚ, 0 ≤ r → r < 1 →
      900 ≤ delayWithJitter 0 r ∧ delayWithJitter 0 r < 1100) ∧
    ¬ (∃ r : ℚ, 0 ≤ r ∧ r < 1 ∧ delayWithJitter 0 r = 1150) ∧
    ((4 : ℚ) / 5 * 1000 ≤ 1150 ∧ (1150 : ℚ) ≤ 6 / 5 * 1000) := by
  have hexp : exponentialDelay 0 = 1000 := by norm_num [exponentialDelay]
  have hval : ∀ r : ℚ, 0 ≤ r → delayWithJitter 0 r = 900 + 200 * r := by
    intro r hr
    have : exponentialDelay 0 + jitterTerm 0 r = 900 + 200 * r := by
      simp only [jitterTerm, hexp]
      ring_nf
    rw [delayWithJitter, this, max_eq_right (by nlinarith)]
  refine ⟨?_, ?_, by norm_num⟩
  · intro r h0 h1
    rw [hval r h0]
    constructor <;> nlinarith
  · rintro ⟨r, h0, h1, he⟩
    rw [hval r h0] at he
    nlinarith

/-- Witness for C4: the in-band bounds applied at the concrete draw r = 1/2. -/
theorem C4_witness :
    900 ≤ delayWithJitter 0 (1 / 2) ∧ delayWithJitter 0 (1 / 2) < 1100 :=
  C4_theorem.1 (1 / 2) (by norm_num) (by norm_num)

/-! ### HTTP error translation (`reviewCodeChunk`, lines 322-336) -/

structure DeepseekApiError where
  message : String := ""
  statusCode : Nat := 0
  deriving DecidableEq

/-- Outcome of `JSON.parse(text)` on the error body, supplied as data:
`none` models a parse exception, `some` carries the (truthy) fields read
off the parsed object — `errorData.error?.message` and `errorData.error`
as a string. -/
structure ParsedErrorBody where
  errorMessage : Option String := none
  errorField : Option String := none
  deriving DecidableEq

/-- The detail selected by `errorData.error?.message || errorData.error || text`. -/
def errorDetail (b : ParsedErrorBody) (text : String) : String :=
  match b.errorMessage with
  | some m => m
  | none =>
    match b.errorField with
    | some e => e
    | none => text

/-- Handler of a `!response.ok` response (lines 323-333).  The `try` block
always throws: either `JSON.parse` raises (modelled `Sum.inr`), or the
freshly built detailed `DeepseekApiError` is thrown (`Sum.inl`) — and both
are caught by the `catch (e)` of that same `try`, which then throws the
raw-body-text variant.  So the detailed message of line 328 is never the
one that escapes. -/
def handleErrorBody (status : Nat) (statusText text : String)
    (parsed : Option ParsedErrorBody) : DeepseekApiError :=
  let tryOutcome : Sum DeepseekApiError String :=
    match parsed with
    | some errorData =>
      Sum.inl { message := "DeepSeek API error: " ++ toString status ++ " - "
                  ++ errorDetail errorData text,
                statusCode := status }
    | none => Sum.inr "SyntaxError"
  match tryOutcome with
  | Sum.inl _ =>
    { message := "DeepSeek API error: " ++ toString status ++ " " ++ statusText
        ++ " - " ++ text,
      statusCode := status }
  | Sum.inr _ =>
    { message := "DeepSeek API error: " ++ toString status ++ " " ++ statusText
        ++ " - " ++ text,
      statusCode := status }

/-- C5: for a non-success status whose body is valid JSON with an
`error.message` detail, the thrown typed error does carry the status code,
but its message is the raw-body variant, not the parsed-detail variant the
claim describes — the detailed error thrown inside the `try` is swallowed
by its own `catch`. -/
theorem C5_theorem :
    (handleErrorBody 429 "Too Many Requests"
        "\x7b\"error\":\x7b\"message\":\"Rate limited\"\x7d\x7d"
        (some { errorMessage := some "Rate limited" })).message
      = "DeepSeek API error: 429 Too Many Requests - \x7b\"error\":\x7b\"message\":\"Rate limited\"\x7d\x7d" ∧
    (handleErrorBody 429 "Too Many Requests"
        "\x7b\"error\":\x7b\"message\":\"Rate limited\"\x7d\x7d"
        (some { errorMessage := some "Rate limited" })).message
      ≠ "DeepSeek API error: 429 - Rate limited" ∧
    (handleErrorBody 429 "Too Many Requests"
        "\x7b\"error\":\x7b\"message\":\"Rate limited\"\x7d\x7d"
        (some { errorMessage := some "Rate limited" })).statusCode = 429 := by
  refine ⟨by decide, by decide, rfl⟩

/-! ### Section extractor (`extractSection` lines 628-674,
`extractIssuesBySeverity` lines 682-750, `parseReviewResponse` lines 445-473)

The heading regexes `\bW\b[:\s]*` and `#{h}\s*\bW\b[:\s]*` (case-insensitive,
`h` = 1..3 literal `#` markers) are specialised to executable matchers: the
heading word starts and ends with ASCII letters, so the `\b` assertions and
the greedy quantifiers are deterministic. -/

/-- Length of the maximal run of characters satisfying `p` at the front. -/
def runLen (p : Char → Bool) : List Char → Nat
  | [] => 0
  | c :: cs => if p c then runLen p cs + 1 else 0

/-- Case-insensitive match of the word `w` as the initial segment of `t`
(ASCII case folding, as the regexes' `i` flag on ASCII words). -/
def icStartsMatch : List Char → List Char → Bool
  | _, [] => true
  | [], _ :: _ => false
  | c :: cs, d :: ds => (c.toLower == d.toLower) && icStartsMatch cs ds

/-- Character class `[:\s]` of the trailing `[:\s]*` in the heading regexes. -/
def isColonOrSpace (c : Char) : Bool :=
  c = ':' || isJsSpace c

/-- True when position `i` of `t` is at a `\b` boundary in front of a word
character: start of text, or preceded by a non-word character. -/
def boundaryBefore (t : List Char) (i : Nat) : Bool :=
  match i with
  | 0 => true
  | j + 1 =>
    match (t.drop j).head? with
    | some c => !isWordChar c
    | none => true

/-- True when the character at position `i` (if any) is not a word
character — the `\b` boundary after the matched word. -/
def boundaryAfter (t : List Char) (i : Nat) : Bool :=
  match (t.drop i).head? with
  | some c => !isWordChar c
  | none => true

/-- Match length of the heading regex at position `i` of `t`: for `h = 0`
the pattern `\bW\b[:\s]*`, for `h = 1..3` the pattern `#{h}\s*\bW\b[:\s]*`
(the `\b` before `W` is automatic there, the preceding character being `#`
or whitespace).  Returns `none` when the pattern does not match at `i`. -/
def patMatchLen (t w : List Char) (h i : Nat) : Option Nat :=
  if h = 0 then
    if boundaryBefore t i && icStartsMatch (t.drop i) w
        && boundaryAfter t (i + w.length) then
      some (w.length + runLen isColonOrSpace (t.drop (i + w.length)))
    else none
  else
    if (t.drop i).take h = List.replicate h '#' then
      let sp := runLen isJsSpace (t.drop (i + h))
      let j := i + h + sp
      if icStartsMatch (t.drop j) w && boundaryAfter t (j + w.length) then
        some (h + sp + w.length + runLen isColonOrSpace (t.drop (j + w.length)))
      else none
    else none

/-- First (leftmost) match of the position matcher `f`: scan `i = from0`
upward while `fuel` lasts, returning the match position and length. -/
def firstMatchFrom (f : Nat → Option Nat) : Nat → Nat → Option (Nat × Nat)
  | _, 0 => none
  | i, fuel + 1 =>
    match f i with
    | some len => some (i, len)
    | none => firstMatchFrom f (i + 1) fuel

/-- Result of JavaScript `text.match(regex)` for one heading regex:
position and length of its leftmost match. -/
def firstMatch (t w : List Char) (h : Nat) : Option (Nat × Nat) :=
  firstMatchFrom (patMatchLen t w h) 0 (t.length + 1)

/-- The four heading regexes in the order the source lists them (lines
632-637 and 686-691): plain, `###`, `##`, `#`. -/
def headingMatches (t w : List Char) : List (Option (Nat × Nat)) :=
  [firstMatch t w 0, firstMatch t w 3, firstMatch t w 2, firstMatch t w 1]

/-- Fold of lines 642-648: keep the match with the strictly smallest index,
earlier regex in the list winning ties. -/
def bestMatch (ms : List (Option (Nat × Nat))) : Option (Nat × Nat) :=
  ms.foldl
    (fun acc m =>
      match acc, m with
      | none, m => m
      | some a, none => some a
      | some a, some c => if c.1 < a.1 then some c else some a)
    none

/-- Fold of lines 657-671 (and 714-728): shrink `endIndex` to the smallest
match index that lies strictly between `start` and the current `endIndex`. -/
def shrinkEnd (start : Nat) (ms : List (Option (Nat × Nat))) (e0 : Nat) : Nat :=
  ms.foldl
    (fun e m =>
      match m with
      | some c => if start < c.1 && c.1 < e then c.1 else e
      | none => e)
    e0

/-- `extractSection(text, sectionName, nextSectionName)` (lines 628-674). -/
def extractSection (t w : List Char) (next : Option (List Char)) : List Char :=
  if t = [] then []
  else
    match bestMatch (headingMatches t w) with
    | none => []
    | some m =>
      let start := m.1 + m.2
      let e :=
        match next with
        | none => t.length
        | some nw => shrinkEnd start (headingMatches t nw) t.length
      jsTrim ((t.drop start).take (e - start))

/-- Lookahead `(?=\n\d+\.|\n\s*$|$)` of the numbered-item regex (line 736):
holds at position `e` when `e` is the end of text, or a newline followed by
a numbered marker, or a newline followed only by whitespace. -/
def numberedLookahead (t : List Char) (e : Nat) : Bool :=
  e ≥ t.length ||
  (match (t.drop e).head? with
   | some c =>
     c = '\n' &&
       ((runLen Char.isDigit (t.drop (e + 1)) > 0 &&
          (t.drop (e + 1 + runLen Char.isDigit (t.drop (e + 1)))).head? = some '.') ||
        (t.drop (e + 1)).all isJsSpace)
   | none => false)

/-- Smallest position `e ≥ j` satisfying the lookahead. -/
def findLookaheadFrom (t : List Char) : Nat → Nat → Option Nat
  | _, 0 => none
  | j, fuel + 1 =>
    if numberedLookahead t j then some j
    else findLookaheadFrom t (j + 1) fuel

/-- Match of `/\d+\.\s+.+?(?=\n\d+\.|\n\s*$|$)/s` anchored at position `i`:
one-or-more digits, a literal dot, greedy `\s+`, then the shortest lazy
`.+?` (dot matching newlines) whose end satisfies the lookahead; the greedy
`\s+` gives back one character when nothing is left for `.+?`.  Returns the
end position of the match. -/
def numberedMatchAt (t : List Char) (i : Nat) : Option Nat :=
  let d := runLen Char.isDigit (t.drop i)
  if d = 0 then none
  else if (t.drop (i + d)).head? ≠ some '.' then none
  else
    let s := runLen isJsSpace (t.drop (i + d + 1))
    if s = 0 then none
    else
      let k := i + d + 1 + s
      if k < t.length then findLookaheadFrom t (k + 1) (t.length + 1)
      else if s ≥ 2 then some t.length
      else none

/-- All (global-flag) matches of the numbered-item regex from position `i`:
leftmost match, then continue searching from its end. -/
def numberedMatchesFrom (t : List Char) : Nat → Nat → List (List Char)
  | _, 0 => []
  | i, fuel + 1 =>
    if i ≥ t.length then []
    else
      match numberedMatchAt t i with
      | some e => ((t.drop i).take (e - i)) :: numberedMatchesFrom t e fuel
      | none => numberedMatchesFrom t (i + 1) fuel

/-- `severityText.match(/\d+\.\s+.+?(?=\n\d+\.|\n\s*$|$)/gs)` (line 736),
the empty list standing for a `null` result. -/
def numberedMatches (t : List Char) : List (List Char) :=
  numberedMatchesFrom t 0 (t.length + 1)

/-- Match length of the split separator `\n\s*[-*•]\s*|\n\s*\d+\.\s+`
(line 743) at position `i`. -/
def sepMatchAt (t : List Char) (i : Nat) : Option Nat :=
  if (t.drop i).head? ≠ some '\n' then none
  else
    let sp := runLen isJsSpace (t.drop (i + 1))
    let j := i + 1 + sp
    match (t.drop j).head? with
    | some c =>
      if c = '-' || c = '*' || c = '•' then
        some (1 + sp + 1 + runLen isJsSpace (t.drop (j + 1)))
      else
        let d := runLen Char.isDigit (t.drop j)
        if d > 0 && (t.drop (j + d)).head? = some '.' then
          let s2 := runLen isJsSpace (t.drop (j + d + 1))
          if s2 > 0 then some (1 + sp + d + 1 + s2) else none
        else none
    | none => none

/-- JavaScript `String.prototype.split` on the bullet separator regex:
pieces of `t` between non-overlapping leftmost separator matches. -/
def bulletSplitFrom (t : List Char) : Nat → Nat → Nat → List (List Char)
  | start, _, 0 => [t.drop start]
  | start, i, fuel + 1 =>
    if i ≥ t.length then [(t.drop start).take (t.length - start)]
    else
      match sepMatchAt t i with
      | some len =>
        ((t.drop start).take (i - start)) :: bulletSplitFrom t (i + len) (i + len) fuel
      | none => bulletSplitFrom t start (i + 1) fuel

/-- `severityText.split(/\n\s*[-*•]\s*|\n\s*\d+\.\s+/)` (line 743). -/
def bulletSplit (t : List Char) : List (List Char) :=
  bulletSplitFrom t 0 0 (t.length + 1)

/-- The four severity names of line 709. -/
def severityNames : List (List Char) :=
  ["Critical".data, "High".data, "Medium".data, "Low".data]

/-- `extractIssuesBySeverity(issuesText, severity)` (lines 682-750). -/
def extractIssuesBySeverity (t sev : List Char) : List (List Char) :=
  if t = [] then []
  else
    match bestMatch (headingMatches t sev) with
    | none => []
    | some m =>
      let start := m.1 + m.2
      let others := severityNames.filter (fun s => jsToLower s ≠ jsToLower sev)
      let e := others.foldl (fun e ns => shrinkEnd start (headingMatches t ns) e) t.length
      let sevText := jsTrim ((t.drop start).take (e - start))
      let nm := numberedMatches sevText
      if nm ≠ [] then nm.map jsTrim
      else ((bulletSplit sevText).filter (fun x => jsTrim x ≠ [])).map jsTrim

/-- `parseReviewResponse(reviewText, focusAreas, chunkNumber, totalChunks)`
(lines 445-473): section extraction, severity extraction inside the Issues
section, the full text standing in for a missing Summary section. -/
def parseReviewResponse (reviewText : String) (focusAreas : List String)
    (chunkNumber totalChunks : Nat) : ChunkResult :=
  let t := reviewText.data
  let sSummary := extractSection t "Summary".data (some "Issues".data)
  let sIssues := extractSection t "Issues".data (some "Recommendations".data)
  let sRecommendations := extractSection t "Recommendations".data (some "Strengths".data)
  let sStrengths := extractSection t "Strengths".data none
  { model := "deepseek-chat", focusAreas,
    summary := if sSummary = [] then reviewText else String.mk sSummary,
    issues :=
      { critical := (extractIssuesBySeverity sIssues "Critical".data).map String.mk,
        high := (extractIssuesBySeverity sIssues "High".data).map String.mk,
        medium := (extractIssuesBySeverity sIssues "Medium".data).map String.mk,
        low := (extractIssuesBySeverity sIssues "Low".data).map String.mk },
    recommendations := String.mk sRecommendations,
    strengths := String.mk sStrengths,
    rawResponse := reviewText,
    chunkNumber := chunkNumber, totalChunks := totalChunks }

/-- The raw model text of the Section Extractor test case. -/
def c6Input : String :=
  "## Summary\nAll good\n## Issues\n### Critical\n1. SQL injection\n### High\n1. No input validation\n## Recommendations\nAdd tests\n## Strengths\nClear naming"

set_option maxRecDepth 8000 in
/-- C6: parsing the given raw model text yields summary `"All good"`,
critical issues `["1. SQL injection"]`, high issues
`["1. No input validation"]`, no medium or low issues, recommendations
`"Add tests"` and strengths `"Clear naming"`. -/
theorem C6_theorem :
    (parseReviewResponse c6Input ["security"] 1 1).summary = "All good" ∧
    (parseReviewResponse c6Input ["security"] 1 1).issues =
      { critical := ["1. SQL injection"], high := ["1. No input validation"],
        medium := [], low := [] } ∧
    (parseReviewResponse c6Input ["security"] 1 1).recommendations = "Add tests" ∧
    (parseReviewResponse c6Input ["security"] 1 1).strengths = "Clear naming" := by
  decide

/-! ### Result merger (`combineChunkResults`, lines 481-619)

Lines 483-497 build an initial object that carries a `chunkResults` field
"for retry tracking", but that object is never returned: the function
returns either `chunkResults[0]` (single-result path, line 504) or the fresh
object literal of lines 607-618 — which has no `chunkResults`, `errors` or
`partialSuccess` fields.  The dead initial object is therefore not modelled. -/

inductive Severity
  | critical
  | high
  | medium
  | low
  deriving DecidableEq

/-- The severity iteration order of line 529. -/
def severityOrder : List Severity := [.critical, .high, .medium, .low]

def Issues.get (i : Issues) : Severity → List String
  | .critical => i.critical
  | .high => i.high
  | .medium => i.medium
  | .low => i.low

def Issues.push (i : Issues) : Severity → String → Issues
  | .critical, x => { i with critical := i.critical ++ [x] }
  | .high, x => { i with high := i.high ++ [x] }
  | .medium, x => { i with medium := i.medium ++ [x] }
  | .low, x => { i with low := i.low ++ [x] }

/-- Deduplication key of line 534: `issue.toLowerCase().trim()`. -/
def normalizeIssue (s : String) : String :=
  String.mk (jsTrim (jsToLower s.data))

/-- The (severity, issue) pairs visited by the nested loops of lines
527-543, in their iteration order: chunk results outermost, severities in
`severityOrder`, issues in list order. -/
def issueStream (rs : List ChunkResult) : List (Severity × String) :=
  rs.flatMap (fun r =>
    severityOrder.flatMap (fun sev => (r.issues.get sev).map (fun x => (sev, x))))

/-- Body of the innermost loop (lines 532-539): skip an issue whose
normalized form was already seen, otherwise record the key and append the
issue to its severity bucket. -/
def dedupStep (st : List String × Issues) (p : Severity × String) :
    List String × Issues :=
  let key := normalizeIssue p.2
  if st.1.contains key then st
  else (key :: st.1, st.2.push p.1 p.2)

/-- The merged, deduplicated issue lists (`combinedIssues`). -/
def combinedIssuesOf (rs : List ChunkResult) : Issues :=
  ((issueStream rs).foldl dedupStep ([], {})).2

/-- The `issueCount` object of lines 598-605. -/
def mkIssueCount (i : Issues) : IssueCount :=
  { critical := i.critical.length, high := i.high.length,
    medium := i.medium.length, low := i.low.length,
    total := i.critical.length + i.high.length + i.medium.length + i.low.length }

/-- JavaScript `split(/\n+/)`: pieces of the string between maximal runs of
newlines (fuelled recursion; the fuel `length + 1` always suffices). -/
def splitNlRunsAux : Nat → List Char → List Char → List (List Char)
  | 0, _, cur => [cur.reverse]
  | fuel + 1, t, cur =>
    match t with
    | [] => [cur.reverse]
    | c :: rest =>
      if c = '\n' then
        cur.reverse :: splitNlRunsAux fuel (rest.dropWhile (fun d => d = '\n')) []
      else splitNlRunsAux fuel rest (c :: cur)

def splitNewlineRuns (t : List Char) : List (List Char) :=
  splitNlRunsAux (t.length + 1) t []

/-- Body of the dedup loops of lines 557-563 / 583-589: keep an item whose
lower-cased trimmed form is new. -/
def addDedupItem (st : List String × List String) (item : String) :
    List String × List String :=
  let key := normalizeIssue item
  if st.1.contains key then st else (key :: st.1, st.2 ++ [item])

/-- The deduplicated items collected from a list of free-text fields
(lines 549-565 / 575-591): skip falsy (empty) fields, split each kept field
on newline runs, trim, drop empties, dedup on the lower-cased trimmed key. -/
def collectDedupItems (texts : List String) : List String :=
  (texts.foldl
    (fun st txt =>
      if txt = "" then st
      else
        ((((splitNewlineRuns txt.data).map (fun p => String.mk (jsTrim p))).filter
            (fun x => x ≠ "")).foldl addDedupItem st))
    ([], [])).2

/-- Lines 567-569 / 593-595: join the deduplicated items with blank lines,
an empty collection collapsing to the empty string. -/
def joinedDedup (texts : List String) : String :=
  let items := collectDedupItems texts
  if items = [] then "" else String.intercalate "\n\n" items

/-- `combineChunkResults(chunkResults, focusAreas)` (lines 481-619), the
throw on an empty input modelled as `Except.error`. -/
def combineChunkResults (chunkResults : List ChunkResult)
    (focusAreas : List String) : Except String Report :=
  match chunkResults with
  | [] => .error "No chunk results to combine"
  | [r] => .ok r.toReport
  | r0 :: _ :: _ =>
    let summaries := chunkResults.enum.map (fun p =>
      "Chunk " ++ toString (p.1 + 1) ++ ": " ++
        (if p.2.summary = "" then "No summary available" else p.2.summary))
    let combinedIssues := combinedIssuesOf chunkResults
    .ok { model := "deepseek-chat", focusAreas,
          summary := "Code Review Summary (" ++ toString chunkResults.length
            ++ " chunks):\n\n" ++ String.intercalate "\n\n" summaries,
          issues := combinedIssues,
          issueCount := some (mkIssueCount combinedIssues),
          recommendations := joinedDedup (chunkResults.map ChunkResult.recommendations),
          strengths := joinedDedup (chunkResults.map ChunkResult.strengths),
          rawResponse := String.intercalate "\n\n---\n\n"
            (chunkResults.map ChunkResult.rawResponse),
          processedChunks := some chunkResults.length,
          totalChunks := some r0.totalChunks }

/-! ### Output enhancement (`enhanceOutputFormat`, lines 222-278) -/

/-- JavaScript `x || 1` on a possibly-undefined number. -/
def jsOrOne (o : Option Nat) : Nat :=
  match o with
  | some n => if n = 0 then 1 else n
  | none => 1

/-- The numbered rendering `${i+1}. ${issue}` joined with newlines
(lines 260, 264). -/
def mkNumberedList (xs : List String) : String :=
  String.intercalate "\n" (xs.enum.map (fun p => toString (p.1 + 1) ++ ". " ++ p.2))

/-- The `quickStats` template literal of lines 240-250 (it starts with a
newline, being a backtick literal opened at the end of line 240). -/
def mkQuickStats (totalIssues c h m l : Nat) (focusAreas : List String)
    (p t retryCount : Nat) : String :=
  "\n## Quick Stats\n- **Total Issues**: " ++ toString totalIssues ++
  "\n- **Critical**: " ++ toString c ++
  "\n- **High**: " ++ toString h ++
  "\n- **Medium**: " ++ toString m ++
  "\n- **Low**: " ++ toString l ++
  "\n- **Focus Areas**: " ++ String.intercalate ", " focusAreas ++
  "\n- **Chunks Processed**: " ++ toString p ++ "/" ++ toString t ++ "\n" ++
  (if retryCount > 0 then
    "- **Chunks Recovered**: " ++ toString retryCount ++ " (via retry mechanism)"
   else "") ++ "\n"

/-- The `keyIssues` literal of lines 253-267. -/
def mkKeyIssues (c h : Nat) (iss : Issues) : String :=
  if c > 0 || h > 0 then
    "\n## Key Issues to Address\n\n" ++
    (if c > 0 then "### Critical Issues\n" ++ mkNumberedList iss.critical ++ "\n"
     else "") ++
    "\n\n" ++
    (if h > 0 then "### High Priority Issues\n" ++ mkNumberedList iss.high ++ "\n"
     else "") ++
    "\n"
  else ""

/-- `enhanceOutputFormat(results)` (lines 222-278): prepend the quick-stats
block and the key-issues block to the summary, and append the retry note
when some stored chunk result records a retry success. -/
def enhanceOutputFormat (results : Report) : Report :=
  let counts :=
    match results.issueCount with
    | some ic => (ic.critical, ic.high, ic.medium, ic.low)
    | none =>
      (results.issues.critical.length, results.issues.high.length,
       results.issues.medium.length, results.issues.low.length)
  let totalIssues := counts.1 + counts.2.1 + counts.2.2.1 + counts.2.2.2
  let retrySuccessCount :=
    match results.chunkResults with
    | some crs => (crs.filter (fun c => c.retrySuccess = some true)).length
    | none => 0
  let quickStats := mkQuickStats totalIssues counts.1 counts.2.1 counts.2.2.1
    counts.2.2.2 results.focusAreas (jsOrOne results.processedChunks)
    (jsOrOne results.totalChunks) retrySuccessCount
  let keyIssues := mkKeyIssues counts.1 counts.2.1 results.issues
  let summary1 := quickStats ++ keyIssues ++ "\n**\n\n" ++ results.summary
  let summary2 :=
    if retrySuccessCount > 0 then
      summary1 ++ "\n\n**Note:** " ++ toString retrySuccessCount ++
        " chunk(s) initially failed but were successfully recovered through the automatic retry mechanism."
    else summary1
  { results with summary := summary2 }

/-! ### Chunk orchestrator (`reviewWithDeepseek`, lines 38-141)

The per-chunk network work is supplied as data: `outcomes` lists, chunk by
chunk in index order, the settled outcome of that chunk's retry-wrapped
processing (the canonical sequential interleaving of the concurrent loop of
lines 77-119).  Status tracking and console progress rendering are pure
output and are not modelled. -/

/-- The accumulation of `chunkResults` and `errors` (lines 98 and 104-108):
a success appends the result, a failure appends the error entry carrying the
1-based chunk number, the message, and the first 100 characters of the
chunk's source followed by `"..."`. -/
def collectSettled : Nat → List String → List (Except String ChunkResult) →
    List ChunkResult × List ChunkError
  | _, [], _ => ([], [])
  | _, _ :: _, [] => ([], [])
  | i, c :: cs, o :: os =>
    let rest := collectSettled (i + 1) cs os
    match o with
    | .ok r => (r :: rest.1, rest.2)
    | .error m =>
      (rest.1, { chunkNumber := i + 1, error := m, code := c.take 100 ++ "..." } :: rest.2)

/-- The partial-failure warning prefixed to the summary (line 134). -/
def mkFailWarning (numErrors totalChunks : Nat) : String :=
  "⚠️ Note: " ++ toString numErrors ++ " of " ++ toString totalChunks ++
    " chunks failed to process. The review is incomplete.\n\n"

/-- The aggregate error thrown when every chunk failed (lines 122-125). -/
def mkAllFailedMsg (numErrors : Nat) (firstError : String) : String :=
  "All " ++ toString numErrors ++ " chunks failed to process. First error: "
    ++ firstError

/-- The orchestration of `reviewWithDeepseek` after the split (lines
52-140): wait for all chunk outcomes, throw the aggregate error if no chunk
succeeded and some failed, otherwise merge, attach partial-failure metadata
when some chunk failed, and enhance the output format. -/
def reviewOrchestrate (chunks : List String)
    (outcomes : List (Except String ChunkResult))
    (focusAreas : List String) : Except String Report :=
  let totalChunks := chunks.length
  let settled := collectSettled 0 chunks outcomes
  match settled.1, settled.2 with
  | [], e :: rest =>
    .error (mkAllFailedMsg (rest.length + 1) e.error)
  | crs, errs =>
    match combineChunkResults crs focusAreas with
    | .error m => .error m
    | .ok combined =>
      let final :=
        if errs.length > 0 then
          { combined with
            errors := some errs,
            partialSuccess := some true,
            summary := mkFailWarning errs.length totalChunks ++ combined.summary }
        else combined
      .ok (enhanceOutputFormat final)

/-! ### Properties of the merge deduplication -/

/-- The four severity buckets of an `Issues` object, concatenated. -/
def allIssues (i : Issues) : List String :=
  i.critical ++ i.high ++ i.medium ++ i.low

theorem mem_allIssues_push (i : Issues) (sev : Severity) (x y : String) :
    y ∈ allIssues (i.push sev x) ↔ y = x ∨ y ∈ allIssues i := by
  cases sev <;> simp [Issues.push, allIssues] <;> tauto

theorem mem_keys_push (i : Issues) (sev : Severity) (x : String) (k : String) :
    k ∈ (allIssues (i.push sev x)).map normalizeIssue ↔
      k = normalizeIssue x ∨ k ∈ (allIssues i).map normalizeIssue := by
  simp only [List.mem_map, mem_allIssues_push]
  constructor
  · rintro ⟨a, ha | ha, rfl⟩
    · exact Or.inl (by rw [ha])
    · exact Or.inr ⟨a, ha, rfl⟩
  · rintro (rfl | ⟨a, ha, rfl⟩)
    · exact ⟨x, Or.inl rfl, rfl⟩
    · exact ⟨a, Or.inr ha, rfl⟩

theorem nodup_insert_between {α : Type} (a b : List α) (k : α)
    (hn : (a ++ b).Nodup) (hk : k ∉ a ++ b) : (a ++ k :: b).Nodup := by
  rw [List.nodup_middle]
  exact List.nodup_cons.mpr ⟨hk, hn⟩

theorem keys_push_nodup (i : Issues) (sev : Severity) (x : String)
    (hn : ((allIssues i).map normalizeIssue).Nodup)
    (hx : normalizeIssue x ∉ (allIssues i).map normalizeIssue) :
    ((allIssues (i.push sev x)).map normalizeIssue).Nodup := by
  cases sev
  · have := nodup_insert_between (i.critical.map normalizeIssue)
      ((i.high ++ i.medium ++ i.low).map normalizeIssue) (normalizeIssue x)
      (by simpa [allIssues, List.append_assoc] using hn)
      (by simpa [allIssues, List.append_assoc] using hx)
    simpa [allIssues, Issues.push, List.append_assoc] using this
  · have := nodup_insert_between ((i.critical ++ i.high).map normalizeIssue)
      ((i.medium ++ i.low).map normalizeIssue) (normalizeIssue x)
      (by simpa [allIssues, List.append_assoc] using hn)
      (by simpa [allIssues, List.append_assoc] using hx)
    simpa [allIssues, Issues.push, List.append_assoc] using this
  · have := nodup_insert_between ((i.critical ++ i.high ++ i.medium).map normalizeIssue)
      (i.low.map normalizeIssue) (normalizeIssue x)
      (by simpa [allIssues, List.append_assoc] using hn)
      (by simpa [allIssues, List.append_assoc] using hx)
    simpa [allIssues, Issues.push, List.append_assoc] using this
  · have := nodup_insert_between ((i.critical ++ i.high ++ i.medium ++ i.low).map normalizeIssue)
      ([] : List String) (normalizeIssue x)
      (by simpa [allIssues, List.append_assoc] using hn)
      (by simpa [allIssues, List.append_assoc] using hx)
    simpa [allIssues, Issues.push, List.append_assoc] using this

theorem foldl_dedup_invariant (stream : List (Severity × String)) :
    ∀ (seen : List String) (acc : Issues),
      (∀ k ∈ (allIssues acc).map normalizeIssue, k ∈ seen) →
      ((allIssues acc).map normalizeIssue).Nodup →
      (∀ k ∈ (allIssues ((stream.foldl dedupStep (seen, acc)).2)).map normalizeIssue,
          k ∈ (stream.foldl dedupStep (seen, acc)).1) ∧
      ((allIssues ((stream.foldl dedupStep (seen, acc)).2)).map normalizeIssue).Nodup := by
  induction stream with
  | nil => intro seen acc h1 h2; exact ⟨h1, h2⟩
  | cons p rest ih =>
    intro seen acc h1 h2
    simp only [List.foldl_cons]
    by_cases hc : normalizeIssue p.2 ∈ seen
    · rw [show dedupStep (seen, acc) p = (seen, acc) from by simp [dedupStep, hc]]
      exact ih seen acc h1 h2
    · rw [show dedupStep (seen, acc) p
          = (normalizeIssue p.2 :: seen, acc.push p.1 p.2) from by simp [dedupStep, hc]]
      have hnotin : normalizeIssue p.2 ∉ (allIssues acc).map normalizeIssue := by
        intro hmem
        exact hc (h1 _ hmem)
      refine ih (normalizeIssue p.2 :: seen) (acc.push p.1 p.2) ?_ ?_
      · intro k hk
        rcases (mem_keys_push acc p.1 p.2 k).mp hk with rfl | hk'
        · exact List.mem_cons_self _ _
        · exact List.mem_cons_of_mem _ (h1 k hk')
      · exact keys_push_nodup acc p.1 p.2 h2 hnotin

/-- The merged issue lists carry pairwise-distinct deduplication keys,
across all four severity buckets combined. -/
theorem combinedIssues_nodup_keys (rs : List ChunkResult) :
    ((allIssues (combinedIssuesOf rs)).map normalizeIssue).Nodup :=
  (foldl_dedup_invariant (issueStream rs) [] {}
    (by simp [allIssues]) (by simp [allIssues])).2

theorem Issues.get_push_same (i : Issues) (sev : Severity) (x : String) :
    (i.push sev x).get sev = i.get sev ++ [x] := by
  cases sev <;> rfl

theorem Issues.get_push_ne (i : Issues) (s t : Severity) (x : String) (h : s ≠ t) :
    (i.push s x).get t = i.get t := by
  cases s <;> cases t <;> simp_all [Issues.push, Issues.get]

theorem foldl_dedup_sublist (sev : Severity) (stream : List (Severity × String)) :
    ∀ (seen : List String) (acc : Issues),
      (((stream.foldl dedupStep (seen, acc)).2).get sev).Sublist
        (acc.get sev ++ stream.filterMap (fun p => if p.1 = sev then some p.2 else none)) := by
  induction stream with
  | nil => intro seen acc; simp
  | cons p rest ih =>
    intro seen acc
    simp only [List.foldl_cons, List.filterMap_cons]
    by_cases hc : normalizeIssue p.2 ∈ seen
    · rw [show dedupStep (seen, acc) p = (seen, acc) from by simp [dedupStep, hc]]
      by_cases hsev : p.1 = sev
      · simp only [hsev, if_true]
        exact (ih seen acc).trans
          (List.Sublist.append_left (List.sublist_cons_self p.2 _) _)
      · simp only [hsev, if_false]
        exact ih seen acc
    · rw [show dedupStep (seen, acc) p
          = (normalizeIssue p.2 :: seen, acc.push p.1 p.2) from by simp [dedupStep, hc]]
      by_cases hsev : p.1 = sev
      · simp only [hsev, if_true]
        have h2 := ih (normalizeIssue p.2 :: seen) (acc.push p.1 p.2)
        rw [hsev, Issues.get_push_same] at h2
        simpa [List.append_assoc] using h2
      · simp only [hsev, if_false]
        have h2 := ih (normalizeIssue p.2 :: seen) (acc.push p.1 p.2)
        rwa [Issues.get_push_ne acc p.1 sev p.2 hsev] at h2

theorem filterMap_tag (sev s : Severity) (l : List String) :
    (l.map (fun x => (s, x))).filterMap (fun p => if p.1 = sev then some p.2 else none)
      = if s = sev then l else [] := by
  induction l with
  | nil => simp
  | cons a t ih =>
    by_cases h : s = sev <;>
      simp only [List.map_cons, List.filterMap_cons, ih] <;>
      simp [h]

theorem filterMap_issueStream (sev : Severity) (rs : List ChunkResult) :
    (issueStream rs).filterMap (fun p => if p.1 = sev then some p.2 else none)
      = rs.flatMap (fun r => r.issues.get sev) := by
  induction rs with
  | nil => simp [issueStream]
  | cons r rest ih =>
    simp only [issueStream, List.flatMap_cons, List.filterMap_append] at ih ⊢
    rw [ih]
    congr 1
    cases sev <;>
      simp only [severityOrder, List.flatMap_cons, List.flatMap_nil,
        List.filterMap_append, filterMap_tag, List.append_nil] <;>
      simp [Issues.get]

/-- Each merged severity list is a sublist (first-seen order preserved) of
the concatenation, in chunk order, of that severity's input lists. -/
theorem combinedIssues_sublist (rs : List ChunkResult) (sev : Severity) :
    ((combinedIssuesOf rs).get sev).Sublist
      (rs.flatMap (fun r => r.issues.get sev)) := by
  have h := foldl_dedup_sublist sev (issueStream rs) [] ({} : Issues)
  rw [filterMap_issueStream] at h
  have hempty : ({} : Issues).get sev = [] := by cases sev <;> rfl
  rw [hempty] at h
  simpa [combinedIssuesOf] using h

deriving instance DecidableEq for Except

/-- First merge-example chunk result: reports `"Missing null check"` as a
high-severity issue. -/
def mergeExA : ChunkResult :=
  { summary := "chunk one", rawResponse := "raw A", chunkNumber := 1, totalChunks := 5,
    issues := { high := ["Missing null check"] } }

/-- Second merge-example chunk result: reports the case-different
`"missing NULL check"` as a high-severity issue. -/
def mergeExB : ChunkResult :=
  { summary := "chunk two", rawResponse := "raw B", chunkNumber := 2, totalChunks := 5,
    issues := { high := ["missing NULL check"] } }

/-- C7: merging two or more chunk results deduplicates issues on their
lower-cased trimmed text across all chunks (and severities): the merged
report's `issueCount` has `total` equal to the sum of the four deduplicated
severity-list lengths (each count being the corresponding list's length),
the deduplication keys across the four merged lists are pairwise distinct,
each merged severity list preserves the first-seen input order (it is a
sublist of the inputs' concatenation), and the two case-different
occurrences of "Missing null check" in high severity merge to a single
entry, the first-seen occurrence kept. -/
theorem C7_theorem :
    (∀ (r0 r1 : ChunkResult) (rest : List ChunkResult) (fa : List String),
      ∃ rep, combineChunkResults (r0 :: r1 :: rest) fa = .ok rep ∧
        (∃ ic, rep.issueCount = some ic ∧
          ic.critical = rep.issues.critical.length ∧
          ic.high = rep.issues.high.length ∧
          ic.medium = rep.issues.medium.length ∧
          ic.low = rep.issues.low.length ∧
          ic.total = rep.issues.critical.length + rep.issues.high.length
            + rep.issues.medium.length + rep.issues.low.length) ∧
        ((allIssues rep.issues).map normalizeIssue).Nodup ∧
        (∀ sev : Severity, (rep.issues.get sev).Sublist
          ((r0 :: r1 :: rest).flatMap (fun r => r.issues.get sev)))) ∧
    Except.map (fun rep => rep.issues.high)
        (combineChunkResults [mergeExA, mergeExB] ["security"])
      = .ok ["Missing null check"] := by
  constructor
  · intro r0 r1 rest fa
    refine ⟨_, rfl,
      ⟨mkIssueCount (combinedIssuesOf (r0 :: r1 :: rest)), rfl, rfl, rfl, rfl, rfl, rfl⟩,
      combinedIssues_nodup_keys _, fun sev => combinedIssues_sublist _ sev⟩
  · decide

/-- C9: the object returned by the merge path of `combineChunkResults`
(lines 607-618) carries `issueCount`, `processedChunks` and `totalChunks`
(the latter taken from the first result's own `totalChunks` field, 5 here,
not the successful-chunk count 2) — but it has NO `chunkResults` field, nor
`errors`/`partialSuccess`: the initial object of lines 483-497, which stored
`chunkResults` "for retry tracking", is discarded, so the claim's required
`chunkResults` field is absent from every merged CombinedReport. -/
theorem C9_theorem :
    Except.map Report.chunkResults
        (combineChunkResults [mergeExA, mergeExB] ["security"]) = .ok none ∧
    Except.map Report.errors
        (combineChunkResults [mergeExA, mergeExB] ["security"]) = .ok none ∧
    Except.map Report.partialSuccess
        (combineChunkResults [mergeExA, mergeExB] ["security"]) = .ok none ∧
    Except.map Report.processedChunks
        (combineChunkResults [mergeExA, mergeExB] ["security"]) = .ok (some 2) ∧
    Except.map Report.totalChunks
        (combineChunkResults [mergeExA, mergeExB] ["security"]) = .ok (some 5) ∧
    mergeExA.totalChunks = 5 ∧
    Except.map (fun rep => rep.issueCount.isSome)
        (combineChunkResults [mergeExA, mergeExB] ["security"]) = .ok true := by
  decide

/-! ### Properties of the orchestration -/

/-- Whether a settled chunk outcome is a failure. -/
def isErrOutcome (o : Except String ChunkResult) : Bool :=
  match o with
  | .error _ => true
  | .ok _ => false

theorem collectSettled_lengths :
    ∀ (cs : List String) (i : Nat) (os : List (Except String ChunkResult)),
      os.length = cs.length →
      ((collectSettled i cs os).1.length = (os.filter (fun o => !isErrOutcome o)).length ∧
       (collectSettled i cs os).2.length = (os.filter isErrOutcome).length) := by
  intro cs
  induction cs with
  | nil =>
    intro i os h
    cases os with
    | nil => simp [collectSettled]
    | cons o os' => simp at h
  | cons c cs' ih =>
    intro i os h
    cases os with
    | nil => simp at h
    | cons o os' =>
      simp only [List.length_cons] at h
      have hih := ih (i + 1) os' (by omega)
      cases o with
      | ok r => simp [collectSettled, isErrOutcome, hih.1, hih.2]
      | error m => simp [collectSettled, isErrOutcome, hih.1, hih.2]

theorem collectSettled_allFail :
    ∀ (cs : List String) (i : Nat) (os : List (Except String ChunkResult)),
      os.length = cs.length →
      (∀ o ∈ os, isErrOutcome o = true) →
      (collectSettled i cs os).1 = [] := by
  intro cs
  induction cs with
  | nil =>
    intro i os h _
    cases os with
    | nil => simp [collectSettled]
    | cons o os' => simp at h
  | cons c cs' ih =>
    intro i os h hall
    cases os with
    | nil => simp at h
    | cons o os' =>
      simp only [List.length_cons] at h
      cases o with
      | ok r =>
        have := hall (.ok r) (List.mem_cons_self _ _)
        simp [isErrOutcome] at this
      | error m =>
        simp only [collectSettled]
        exact ih (i + 1) os' (by omega)
          (fun o ho => hall o (List.mem_cons_of_mem _ ho))

theorem collectSettled_mem_error :
    ∀ (cs : List String) (os : List (Except String ChunkResult)) (i k : Nat)
      (m : String) (c : String),
      os.get? k = some (.error m) → cs.get? k = some c →
      ({ chunkNumber := i + k + 1, error := m, code := c.take 100 ++ "..." } : ChunkError)
        ∈ (collectSettled i cs os).2 := by
  intro cs
  induction cs with
  | nil => intro os i k m c h1 h2; simp at h2
  | cons c0 cs' ih =>
    intro os i k m c h1 h2
    cases os with
    | nil => simp at h1
    | cons o os' =>
      cases k with
      | zero =>
        simp only [List.get?] at h1 h2
        cases h1; cases h2
        simp [collectSettled]
      | succ k' =>
        simp only [List.get?] at h1 h2
        have := ih os' (i + 1) k' m c h1 h2
        have harith : i + 1 + k' + 1 = i + (k' + 1) + 1 := by omega
        rw [harith] at this
        cases o with
        | ok r => simpa [collectSettled] using this
        | error m0 =>
          simp only [collectSettled, List.mem_cons]
          exact Or.inr this

theorem reviewOrchestrate_allFail (chunks : List String)
    (outcomes : List (Except String ChunkResult)) (fa : List String)
    (e : ChunkError) (es : List ChunkError)
    (hcol : collectSettled 0 chunks outcomes = ([], e :: es)) :
    reviewOrchestrate chunks outcomes fa
      = .error (mkAllFailedMsg (es.length + 1) e.error) := by
  simp [reviewOrchestrate, hcol]

theorem combine_nonempty_ok (r : ChunkResult) (rs : List ChunkResult) (fa : List String) :
    ∃ rep, combineChunkResults (r :: rs) fa = .ok rep := by
  cases rs with
  | nil => exact ⟨_, rfl⟩
  | cons r1 rest => exact ⟨_, rfl⟩

theorem reviewOrchestrate_mixed (chunks : List String)
    (outcomes : List (Except String ChunkResult)) (fa : List String)
    (r : ChunkResult) (rs : List ChunkResult) (e : ChunkError) (es : List ChunkError)
    (hcol : collectSettled 0 chunks outcomes = (r :: rs, e :: es)) :
    ∃ combined, combineChunkResults (r :: rs) fa = .ok combined ∧
      reviewOrchestrate chunks outcomes fa =
        .ok (enhanceOutputFormat { combined with
          errors := some (e :: es),
          partialSuccess := some true,
          summary := mkFailWarning (e :: es).length chunks.length ++ combined.summary }) := by
  obtain ⟨combined, hc⟩ := combine_nonempty_ok r rs fa
  refine ⟨combined, hc, ?_⟩
  simp [reviewOrchestrate, hcol, hc]

theorem reviewOrchestrate_noFail (chunks : List String)
    (outcomes : List (Except String ChunkResult)) (fa : List String)
    (r : ChunkResult) (rs : List ChunkResult)
    (hcol : collectSettled 0 chunks outcomes = (r :: rs, [])) :
    ∃ combined, combineChunkResults (r :: rs) fa = .ok combined ∧
      reviewOrchestrate chunks outcomes fa = .ok (enhanceOutputFormat combined) := by
  obtain ⟨combined, hc⟩ := combine_nonempty_ok r rs fa
  refine ⟨combined, hc, ?_⟩
  simp [reviewOrchestrate, hcol, hc]

theorem reviewOrchestrate_empty (chunks : List String)
    (outcomes : List (Except String ChunkResult)) (fa : List String)
    (hcol : collectSettled 0 chunks outcomes = ([], [])) :
    reviewOrchestrate chunks outcomes fa = .error "No chunk results to combine" := by
  simp [reviewOrchestrate, hcol, combineChunkResults]

theorem strAssoc (a b c : String) : a ++ b ++ c = a ++ (b ++ c) := by
  apply String.ext
  simp

theorem combine_ok_fields (rs : List ChunkResult) (fa : List String) (rep : Report)
    (h : combineChunkResults rs fa = .ok rep) :
    rep.chunkResults = none ∧
    (∀ r, rs = [r] → rep.processedChunks = none) ∧
    (∀ r0 r1 rest, rs = r0 :: r1 :: rest → rep.processedChunks = some rs.length) := by
  cases rs with
  | nil => simp [combineChunkResults] at h
  | cons r rs' =>
    cases rs' with
    | nil =>
      simp only [combineChunkResults, Except.ok.injEq] at h
      subst h
      exact ⟨rfl, fun _ _ => rfl, fun r0 r1 rest hx => by simp at hx⟩
    | cons r1 rest =>
      simp only [combineChunkResults, Except.ok.injEq] at h
      subst h
      refine ⟨rfl, fun x hx => by simp at hx, fun a b l hx => rfl⟩

/-- Remainder of the quick-stats block after its `"\n## Quick Stats"` header. -/
def mkQuickStatsTail (totalIssues c h m l : Nat) (focusAreas : List String)
    (p t retryCount : Nat) : String :=
  "\n- **Total Issues**: " ++ toString totalIssues ++
  "\n- **Critical**: " ++ toString c ++
  "\n- **High**: " ++ toString h ++
  "\n- **Medium**: " ++ toString m ++
  "\n- **Low**: " ++ toString l ++
  "\n- **Focus Areas**: " ++ String.intercalate ", " focusAreas ++
  "\n- **Chunks Processed**: " ++ toString p ++ "/" ++ toString t ++ "\n" ++
  (if retryCount > 0 then
    "- **Chunks Recovered**: " ++ toString retryCount ++ " (via retry mechanism)"
   else "") ++ "\n"

theorem mkQuickStats_eq (a b c d e : Nat) (fa : List String) (p t rc : Nat) :
    mkQuickStats a b c d e fa p t rc
      = "\n## Quick Stats" ++ mkQuickStatsTail a b c d e fa p t rc := by
  have hlit : ("\n## Quick Stats\n- **Total Issues**: " : String)
      = "\n## Quick Stats" ++ "\n- **Total Issues**: " := by decide
  apply String.ext
  simp [mkQuickStats, mkQuickStatsTail, hlit]

theorem mkFailWarning_eq (n t : Nat) :
    mkFailWarning n t = "⚠️ Note: " ++ (toString n ++ " of " ++ toString t
      ++ " chunks failed to process. The review is incomplete.\n\n") := by
  apply String.ext
  simp [mkFailWarning]

theorem enhance_summary_shape (x : Report) (hx : x.chunkResults = none) :
    ∃ s k, (enhanceOutputFormat x).summary
      = "\n## Quick Stats" ++ s ++ k ++ "\n**\n\n" ++ x.summary := by
  cases hic : x.issueCount with
  | some ic =>
    refine ⟨mkQuickStatsTail (ic.critical + ic.high + ic.medium + ic.low)
        ic.critical ic.high ic.medium ic.low x.focusAreas
        (jsOrOne x.processedChunks) (jsOrOne x.totalChunks) 0,
      mkKeyIssues ic.critical ic.high x.issues, ?_⟩
    simp only [enhanceOutputFormat, hx, hic]
    rw [mkQuickStats_eq]
    simp
  | none =>
    refine ⟨mkQuickStatsTail
        (x.issues.critical.length + x.issues.high.length
          + x.issues.medium.length + x.issues.low.length)
        x.issues.critical.length x.issues.high.length
        x.issues.medium.length x.issues.low.length x.focusAreas
        (jsOrOne x.processedChunks) (jsOrOne x.totalChunks) 0,
      mkKeyIssues x.issues.critical.length x.issues.high.length x.issues, ?_⟩
    simp only [enhanceOutputFormat, hx, hic]
    rw [mkQuickStats_eq]
    simp

/-- C1 (amended): the orchestrator settles every chunk outcome and: (a) when
every chunk fails (N ≥ 1), it throws the aggregate error naming the failure
count (= N) and the first chunk's error message; (b) when at least one chunk
succeeds and at least one fails, the report carries `partialSuccess = true`
and the collected `errors` list, and `processedChunks` equals the number of
successful chunks whenever at least two succeeded — with exactly one
successful chunk the report is that chunk's own result, which carries no
`processedChunks` field; (c) the successes/errors counts equal the counts of
ok/failed outcomes; (d) each failed chunk `k` (0-based) contributes an error
entry with 1-based `chunkNumber = k + 1`, its error message, and the first
100 characters of the chunk's source followed by `"..."` as context. -/
theorem C1_theorem :
    (∀ (chunks : List String) (outcomes : List (Except String ChunkResult))
      (fa : List String),
      outcomes.length = chunks.length → outcomes ≠ [] →
      (∀ o ∈ outcomes, isErrOutcome o = true) →
      ∃ (e : ChunkError) (es : List ChunkError),
        collectSettled 0 chunks outcomes = ([], e :: es) ∧
        (e :: es).length = outcomes.length ∧
        (∀ m, outcomes.head? = some (.error m) → e.error = m) ∧
        reviewOrchestrate chunks outcomes fa
          = .error ("All " ++ toString outcomes.length
              ++ " chunks failed to process. First error: " ++ e.error)) ∧
    (∀ (chunks : List String) (outcomes : List (Except String ChunkResult))
      (fa : List String) (r : ChunkResult) (rs : List ChunkResult)
      (e : ChunkError) (es : List ChunkError),
      collectSettled 0 chunks outcomes = (r :: rs, e :: es) →
      ∃ rep, reviewOrchestrate chunks outcomes fa = .ok rep ∧
        rep.partialSuccess = some true ∧
        rep.errors = some (e :: es) ∧
        (rs = [] → rep.processedChunks = none) ∧
        (rs ≠ [] → rep.processedChunks = some (rs.length + 1))) ∧
    (∀ (chunks : List String) (outcomes : List (Except String ChunkResult)),
      outcomes.length = chunks.length →
      ((collectSettled 0 chunks outcomes).1.length
          = (outcomes.filter (fun o => !isErrOutcome o)).length ∧
       (collectSettled 0 chunks outcomes).2.length
          = (outcomes.filter isErrOutcome).length)) ∧
    (∀ (chunks : List String) (outcomes : List (Except String ChunkResult))
      (k : Nat) (m : String) (c : String),
      outcomes.get? k = some (.error m) → chunks.get? k = some c →
      ({ chunkNumber := k + 1, error := m, code := c.take 100 ++ "..." } : ChunkError)
        ∈ (collectSettled 0 chunks outcomes).2) := by
  refine ⟨?_, ?_, ?_, ?_⟩
  · intro chunks outcomes fa hlen hne hall
    cases outcomes with
    | nil => exact absurd rfl hne
    | cons o os =>
      cases chunks with
      | nil => simp at hlen
      | cons c cs =>
        cases o with
        | ok r =>
          have := hall (.ok r) (List.mem_cons_self _ _)
          simp [isErrOutcome] at this
        | error m0 =>
          simp only [List.length_cons] at hlen
          have hres : (collectSettled 1 cs os).1 = [] :=
            collectSettled_allFail cs 1 os (by omega)
              (fun o ho => hall o (List.mem_cons_of_mem _ ho))
          have hlens := collectSettled_lengths cs 1 os (by omega)
          have hfilter : os.filter isErrOutcome = os :=
            List.filter_eq_self.mpr (fun o ho => hall o (List.mem_cons_of_mem _ ho))
          have hcol : collectSettled 0 (c :: cs) (.error m0 :: os)
              = ([], { chunkNumber := 1, error := m0, code := c.take 100 ++ "..." }
                  :: (collectSettled 1 cs os).2) := by
            simp [collectSettled, hres]
          refine ⟨{ chunkNumber := 1, error := m0, code := c.take 100 ++ "..." },
            (collectSettled 1 cs os).2, hcol, ?_, ?_, ?_⟩
          · simp [hlens.2, hfilter]
          · intro m hm
            simp only [List.head?, Option.some.injEq, Except.error.injEq] at hm
            exact hm
          · rw [reviewOrchestrate_allFail _ _ fa _ _ hcol]
            have hcount : (collectSettled 1 cs os).2.length + 1 = os.length + 1 := by
              rw [hlens.2, hfilter]
            simp only [mkAllFailedMsg, hcount, List.length_cons]
  · intro chunks outcomes fa r rs e es hcol
    obtain ⟨combined, hc, hor⟩ := reviewOrchestrate_mixed chunks outcomes fa r rs e es hcol
    refine ⟨_, hor, rfl, rfl, ?_, ?_⟩
    · intro hrs
      subst hrs
      exact (combine_ok_fields _ _ _ hc).2.1 r rfl
    · intro hrs
      cases rs with
      | nil => exact absurd rfl hrs
      | cons r1 rest =>
        have := (combine_ok_fields _ _ _ hc).2.2 r r1 rest rfl
        simpa using this
  · intro chunks outcomes hlen
    exact collectSettled_lengths chunks 0 outcomes hlen
  · intro chunks outcomes k m c h1 h2
    have := collectSettled_mem_error chunks outcomes 0 k m c h1 h2
    simpa using this

/-- C1 (counterexample): a 2-chunk run in which chunk 1 succeeds and chunk 2
fails is a partial success (`partialSuccess = true`, one error entry), yet
the report's `processedChunks` is absent (`none`), not 1 as the claim
requires — with exactly one success `combineChunkResults` returns the lone
ChunkResult itself, which has no `processedChunks` field. -/
theorem C1_counterexample :
    Except.map Report.processedChunks
        (reviewOrchestrate ["a", "b"] [.ok stubChunkResult, .error "boom"] ["security"])
      = .ok none ∧
    Except.map Report.partialSuccess
        (reviewOrchestrate ["a", "b"] [.ok stubChunkResult, .error "boom"] ["security"])
      = .ok (some true) ∧
    Except.map (fun rep => rep.errors.map List.length)
        (reviewOrchestrate ["a", "b"] [.ok stubChunkResult, .error "boom"] ["security"])
      = .ok (some 1) := by
  decide

/-- Chunk sources of the 5-chunk orchestrator example. -/
def w1chunks : List String := ["c1", "c2", "c3", "c4", "c5"]

/-- Outcomes of the 5-chunk example: chunks {1,3} (0-based) fail,
{0,2,4} succeed. -/
def w1outcomes : List (Except String ChunkResult) :=
  [.ok stubChunkResult, .error "e2", .ok stubChunkResult, .error "e4",
   .ok stubChunkResult]

/-- Error entry of the example's failed chunk 2 (1-based). -/
def w1err2 : ChunkError := { chunkNumber := 2, error := "e2", code := "c2..." }

/-- Error entry of the example's failed chunk 4 (1-based). -/
def w1err4 : ChunkError := { chunkNumber := 4, error := "e4", code := "c4..." }

set_option maxRecDepth 4000 in
/-- Witness for C1: the 5-chunk run with chunks {1,3} failing yields
`partialSuccess = true`, the two expected error entries, and
`processedChunks = 3`. -/
theorem C1_witness :
    ∃ rep, reviewOrchestrate w1chunks w1outcomes ["security"] = .ok rep ∧
      rep.partialSuccess = some true ∧
      rep.errors = some [w1err2, w1err4] ∧
      ([stubChunkResult, stubChunkResult] = ([] : List ChunkResult) →
        rep.processedChunks = none) ∧
      ([stubChunkResult, stubChunkResult] ≠ ([] : List ChunkResult) →
        rep.processedChunks = some 3) :=
  C1_theorem.2.1 w1chunks w1outcomes ["security"] stubChunkResult
    [stubChunkResult, stubChunkResult] w1err2 [w1err4] (by decide)

/-- C10: whenever the orchestrator returns without throwing, the report's
summary is the generated quick-stats block (beginning `"\n## Quick Stats"`,
with the counts, focus areas and chunks-processed lines in its tail),
followed by the key-issues block and the `"\n**\n\n"` separator, and only
then the pre-enhancement summary — so on partial failure the
`"⚠️ Note: "` warning appears after the quick-stats block, not as the
summary's leading text. -/
theorem C10_theorem :
    ∀ (chunks : List String) (outcomes : List (Except String ChunkResult))
      (fa : List String) (rep : Report),
      reviewOrchestrate chunks outcomes fa = .ok rep →
      ∃ statsTail keyIss rest,
        rep.summary = "\n## Quick Stats" ++ statsTail ++ keyIss ++ "\n**\n\n" ++ rest ∧
        ((collectSettled 0 chunks outcomes).2 ≠ [] →
          ∃ w, rest = "⚠️ Note: " ++ w) := by
  intro chunks outcomes fa rep h
  rcases hp : collectSettled 0 chunks outcomes with ⟨a, b⟩
  cases a with
  | nil =>
    cases b with
    | nil =>
      rw [reviewOrchestrate_empty chunks outcomes fa hp] at h
      simp at h
    | cons e es =>
      rw [reviewOrchestrate_allFail chunks outcomes fa e es hp] at h
      simp at h
  | cons r rs =>
    cases b with
    | nil =>
      obtain ⟨combined, hc, hor⟩ := reviewOrchestrate_noFail chunks outcomes fa r rs hp
      rw [hor] at h
      have hrep : rep = enhanceOutputFormat combined := by
        injection h with h'
        exact h'.symm
      obtain ⟨hcr, _, _⟩ := combine_ok_fields _ _ _ hc
      obtain ⟨s, k, hs⟩ := enhance_summary_shape combined hcr
      refine ⟨s, k, combined.summary, ?_, ?_⟩
      · rw [hrep, hs]
      · intro hne
        simp at hne
    | cons e es =>
      obtain ⟨combined, hc, hor⟩ := reviewOrchestrate_mixed chunks outcomes fa r rs e es hp
      rw [hor] at h
      have hrep : rep = enhanceOutputFormat { combined with
          errors := some (e :: es),
          partialSuccess := some true,
          summary := mkFailWarning (e :: es).length chunks.length ++ combined.summary } := by
        injection h with h'
        exact h'.symm
      have hcr' : ({ combined with
          errors := some (e :: es),
          partialSuccess := some true,
          summary := mkFailWarning (e :: es).length chunks.length ++ combined.summary }
            : Report).chunkResults = none :=
        (combine_ok_fields _ _ _ hc).1
      obtain ⟨s, k, hs⟩ := enhance_summary_shape _ hcr'
      refine ⟨s, k, mkFailWarning (e :: es).length chunks.length ++ combined.summary, ?_, ?_⟩
      · rw [hrep, hs]
      · intro _
        refine ⟨toString (e :: es).length ++ " of " ++ toString chunks.length
          ++ " chunks failed to process. The review is incomplete.\n\n" ++ combined.summary, ?_⟩
        rw [mkFailWarning_eq, strAssoc]

/-- Report returned by the concrete partial-failure run used as the C10
witness input. -/
def w10rep : Report :=
  match reviewOrchestrate ["a", "b"] [.ok stubChunkResult, .error "boom"] ["security"] with
  | .ok rep => rep
  | .error _ => {}

set_option maxRecDepth 100000 in
/-- Witness for C10: the concrete 2-chunk partial-failure run's summary has
the quick-stats block first and the warning only inside the tail. -/
theorem C10_witness :
    ∃ statsTail keyIss rest,
      w10rep.summary = "\n## Quick Stats" ++ statsTail ++ keyIss ++ "\n**\n\n" ++ rest ∧
      ((collectSettled 0 ["a", "b"] [.ok stubChunkResult, .error "boom"]).2 ≠ [] →
        ∃ w, rest = "⚠️ Note: " ++ w) :=
  C10_theorem ["a", "b"] [.ok stubChunkResult, .error "boom"] ["security"] w10rep
    (by decide)

end CodeChecker
